import Mathlib

/-!
# Verification of the `halfwit` bisection engine

Shallow embedding of the repository's core data model and algorithms:

* `src/bisection.rs` — `State`, `Behavior`, `Group` (construction, `size`,
  `split`, the `PartialOrd`/`Ord` comparison), and the `Bisection` controller
  (`new`, `set_group_state`).
* `src/main.rs` — the stack-driven search loop (lines 84–119) that pops a
  batch, runs the test, retires recessive batches, records dominant
  singletons, and splits dominant batches in half.

Machine integers (`usize`) are modelled as `Nat`.  Debug-build panics
(arithmetic underflow, the explicit tie-break panic, `unwrap` on `None`,
out-of-bounds `get_mut`) are modelled as `Except`/`Option` failures.
-/

namespace Halfwit

/-- `State` from `bisection.rs`: whether an object is currently included in
the live test subset. -/
inductive State where
  | Enabled
  | Disabled
deriving DecidableEq, Repr

/-- `Behavior` from `bisection.rs`: what effect an object (or group) has on
the behavior of a test.  `Unknown` is the default. -/
inductive Behavior where
  | Unknown
  | Dominant
  | Recessive
deriving DecidableEq, Repr

/-- `Group` from `bisection.rs`: a pair of inclusive indices into the
`Bisection` object vector, together with a behavior classification. -/
structure Group where
  «from» : Nat
  «to» : Nat
  behavior : Behavior
deriving DecidableEq, Repr

/-- `Group::new(from, to)`: constructs a group with behavior `Unknown`.
The source performs no check on the indices. -/
def Group.new (f t : Nat) : Group :=
  { «from» := f, «to» := t, behavior := Behavior.Unknown }

/-- `Group::size()`, i.e. `self.to - self.from + 1`, in the case where the
`usize` subtraction does not underflow (`from ≤ to`).  Call sites that must
account for the debug-build underflow panic guard on `to < from` explicitly
(see `Group.partialCmp`). -/
def Group.size (g : Group) : Nat :=
  g.«to» - g.«from» + 1

/-- `Group::split()`.  A group with `from == to` is returned as two clones of
itself.  Otherwise `to - self.from` is computed, which in a debug build
panics when `to < from` (modelled as `Except.error`); the children cover
`[from, mid]` and `[mid+1, to]` with `mid = from + (to - from) / 2`, both
carrying `Recessive` if the parent was `Recessive` and `Unknown` otherwise. -/
def Group.split (g : Group) : Except String (Group × Group) :=
  if g.«from» = g.«to» then
    Except.ok (g, g)
  else if g.«to» < g.«from» then
    Except.error "attempt to subtract with overflow"
  else
    let newBehavior :=
      match g.behavior with
      | Behavior.Recessive => Behavior.Recessive
      | Behavior.Dominant => Behavior.Unknown
      | Behavior.Unknown => Behavior.Unknown
    let g1 : Group :=
      { «from» := g.«from», «to» := g.«from» + (g.«to» - g.«from») / 2,
        behavior := newBehavior }
    let g2 : Group :=
      { «from» := g1.«to» + 1, «to» := g.«to», behavior := newBehavior }
    Except.ok (g1, g2)

/-- The behavior ranking used by `<Group as PartialOrd>::partial_cmp`:
`Unknown → 3`, `Dominant → 2`, `Recessive → 1`. -/
def behaviorRank : Behavior → Nat
  | Behavior.Unknown => 3
  | Behavior.Dominant => 2
  | Behavior.Recessive => 1

/-- `<Group as PartialOrd>::partial_cmp` (debug build).  Compares behavior
ranks, then `size()` (whose `usize` subtraction panics when `to < from`,
modelled as the first `Except.error`), then `from` reversed; the final
tie-break — which the source mistakenly performs on `from` again rather than
on `to` — panics in debug builds on `Less`/`Greater` (the second
`Except.error`) and otherwise returns `Some(Equal)`. -/
def Group.partialCmp (g o : Group) : Except String (Option Ordering) :=
  match compare (behaviorRank g.behavior) (behaviorRank o.behavior) with
  | Ordering.lt => Except.ok (some Ordering.lt)
  | Ordering.gt => Except.ok (some Ordering.gt)
  | Ordering.eq =>
    if g.«to» < g.«from» ∨ o.«to» < o.«from» then
      Except.error "attempt to subtract with overflow"
    else
      match compare g.size o.size with
      | Ordering.lt => Except.ok (some Ordering.lt)
      | Ordering.gt => Except.ok (some Ordering.gt)
      | Ordering.eq =>
        match compare g.«from» o.«from» with
        | Ordering.lt => Except.ok (some Ordering.gt)
        | Ordering.gt => Except.ok (some Ordering.lt)
        | Ordering.eq =>
          match compare g.«from» o.«from» with
          | Ordering.lt => Except.error "two groups differed by only to"
          | Ordering.gt => Except.error "two groups differed by only to"
          | Ordering.eq => Except.ok (some Ordering.eq)

instance : DecidableEq (Except String (Option Ordering)) := fun
  | Except.ok a, Except.ok b =>
    if h : a = b then isTrue (by rw [h]) else isFalse (by simp [h])
  | Except.ok _, Except.error _ => isFalse (by simp)
  | Except.error _, Except.ok _ => isFalse (by simp)
  | Except.error a, Except.error b =>
    if h : a = b then isTrue (by rw [h]) else isFalse (by simp [h])

/-- Rust's `a < b` for `Group`: `partial_cmp` returns `Some(Less)`. -/
def Group.lt (g o : Group) : Prop :=
  g.partialCmp o = Except.ok (some Ordering.lt)

/-- Rust's `a > b` for `Group`: `partial_cmp` returns `Some(Greater)`. -/
def Group.gt (g o : Group) : Prop :=
  g.partialCmp o = Except.ok (some Ordering.gt)

instance (g o : Group) : Decidable (Group.lt g o) := by
  unfold Group.lt; infer_instance

instance (g o : Group) : Decidable (Group.gt g o) := by
  unfold Group.gt; infer_instance

/-- `impl IntoIterator for &Group`: iterating a group yields the indices
`from..=to` (empty when `to < from`, as for Rust's `RangeInclusive`). -/
def Group.indices (g : Group) : List Nat :=
  List.range' g.«from» (g.«to» + 1 - g.«from»)

/-- The `Bisection` controller from `bisection.rs`.  The trait object
`T: Stateful` is modelled by its only observable, the cached `State`, so the
object vector is a `List State`. -/
structure Bisection where
  objects : List State
  groups : List Group
deriving DecidableEq, Repr

/-- `Bisection::new(objects)`: builds the single initial group
`Group::new(0, objects.len() - 1)`.  On an empty vector the `usize`
subtraction underflows, which panics in a debug build (modelled as
`Except.error`). -/
def Bisection.new (objects : List State) : Except String Bisection :=
  if objects.length = 0 then
    Except.error "attempt to subtract with overflow"
  else
    Except.ok { objects := objects, groups := [Group.new 0 (objects.length - 1)] }

/-- The loop body of `Bisection::set_group_state`: walk the index list,
replacing each object's state and recording the index in the trace `tr`.
`self.objects.get_mut(i).unwrap()` panics when `i` is out of bounds
(modelled as `none`). -/
def setStates (objects : List State) (idxs : List Nat) (s : State)
    (tr : List Nat) : Option (List State × List Nat) :=
  match idxs with
  | [] => some (objects, tr)
  | i :: rest =>
    if i < objects.length then
      setStates (objects.set i s) rest s (tr ++ [i])
    else
      none

/-- `Bisection::set_group_state(group, state)`: `for i in group` set the
state of object `i`.  Returns the updated controller plus the trace of
indices on which `set_state` was invoked, in invocation order; `none` models
the `unwrap` panic on an out-of-bounds index. -/
def Bisection.setGroupState (b : Bisection) (g : Group) (s : State) :
    Option (Bisection × List Nat) :=
  match setStates b.objects g.indices s [] with
  | some (objs, tr) => some ({ objects := objs, groups := b.groups }, tr)
  | none => none

/-!
## The search loop of `main.rs` (lines 84–119)

`main` keeps a stack of batches (`Vec<Vec<Uuid>>`), pops the last batch,
realizes exactly that batch on disk, and runs the test command.  On success
the batch is dropped (recessive); on failure a singleton batch is recorded
as bad; otherwise the batch is `split_at(len / 2)` and both halves are
pushed (so the second half is popped next).  Batches are modelled as lists
of indices with the head of the stack list as its top; the external test is
a function `succ` of the enabled index set (`true` = the script succeeded,
i.e. recessive behavior observed).  The loop is given fuel (one unit per
test invocation); `none` means the fuel ran out.  The result is the `bad`
list together with the number of test invocations performed.
-/

/-- The `while !stack.is_empty()` loop of `main.rs`, with a test-invocation
counter. -/
def bisectLoop (succ : List Nat → Bool) :
    Nat → List (List Nat) → List Nat → Nat → Option (List Nat × Nat)
  | 0, _, _, _ => none
  | _ + 1, [], bad, cnt => some (bad, cnt)
  | fuel + 1, next :: stack, bad, cnt =>
    if succ next then
      bisectLoop succ fuel stack bad (cnt + 1)
    else
      match next with
      | [x] => bisectLoop succ fuel stack (bad ++ [x]) (cnt + 1)
      | _ =>
        bisectLoop succ fuel
          (next.drop (next.length / 2) :: next.take (next.length / 2) :: stack)
          bad (cnt + 1)

/-- Number of test invocations the loop spends on one batch `l` (and,
recursively, on the sub-batches it pushes).  Matches the loop's branching:
one test for a successful or singleton batch, one test plus the work of the
two halves otherwise.  (The value on an empty batch is irrelevant: the loop
never terminates on a failing empty batch, and our lemmas assume `l ≠ []`.) -/
def tests (succ : List Nat → Bool) (l : List Nat) : Nat :=
  if succ l then 1
  else if l.length ≤ 1 then 1
  else 1 + tests succ (l.drop (l.length / 2)) + tests succ (l.take (l.length / 2))
termination_by l.length
decreasing_by
  · simp only [List.length_drop]; omega
  · simp only [List.length_take]; omega

/-- The bad indices the loop records while processing one batch `l`: nothing
for a successful batch, the element itself for a failing singleton, and the
second half's findings followed by the first half's otherwise (the second
half is pushed last, hence popped first). -/
def badOf (succ : List Nat → Bool) (l : List Nat) : List Nat :=
  if succ l then []
  else if l.length ≤ 1 then l
  else badOf succ (l.drop (l.length / 2)) ++ badOf succ (l.take (l.length / 2))
termination_by l.length
decreasing_by
  · simp only [List.length_drop]; omega
  · simp only [List.length_take]; omega

/-- The spec's end-to-end object set
`[1,5,8,7,4,6,3,9,0,5,0,3,1,7,8,7,4,0,3]`. -/
def halfwitObjects : List Nat :=
  [1, 5, 8, 7, 4, 6, 3, 9, 0, 5, 0, 3, 1, 7, 8, 7, 4, 0, 3]

/-- The spec's end-to-end test: dominant behavior is "product of enabled
values == 0", so the script succeeds (recessive observed) exactly when the
product of the enabled values is nonzero. -/
def prodTest (objs : List Nat) (l : List Nat) : Bool :=
  !((l.map fun i => objs.getD i 1).prod == 0)

/-- Test oracle for the single-culprit scenario: the batch is recessive
(the script succeeds) exactly when it does not contain the culprit `p`. -/
def oneCulpritSucc (p : Nat) (l : List Nat) : Bool :=
  !(l.contains p)

/-! ## Helper lemmas -/

/-- One loop step on a successful (recessive) batch: drop it. -/
theorem bisectLoop_step_succ (succ : List Nat → Bool) (fuel : Nat)
    (next : List Nat) (stack : List (List Nat)) (bad : List Nat) (cnt : Nat)
    (h : succ next = true) :
    bisectLoop succ (fuel + 1) (next :: stack) bad cnt
      = bisectLoop succ fuel stack bad (cnt + 1) := by
  simp [bisectLoop, h]

/-- One loop step on a failing singleton batch: record it. -/
theorem bisectLoop_step_single (succ : List Nat → Bool) (fuel : Nat)
    (x : Nat) (stack : List (List Nat)) (bad : List Nat) (cnt : Nat)
    (h : succ [x] = false) :
    bisectLoop succ (fuel + 1) ([x] :: stack) bad cnt
      = bisectLoop succ fuel stack (bad ++ [x]) (cnt + 1) := by
  simp [bisectLoop, h]

/-- One loop step on a failing batch of at least two elements: split it and
push both halves (second half on top). -/
theorem bisectLoop_step_split (succ : List Nat → Bool) (fuel : Nat)
    (x y : Nat) (rest : List Nat) (stack : List (List Nat)) (bad : List Nat)
    (cnt : Nat) (h : succ (x :: y :: rest) = false) :
    bisectLoop succ (fuel + 1) ((x :: y :: rest) :: stack) bad cnt
      = bisectLoop succ fuel
          ((x :: y :: rest).drop ((x :: y :: rest).length / 2)
            :: (x :: y :: rest).take ((x :: y :: rest).length / 2) :: stack)
          bad (cnt + 1) := by
  simp [bisectLoop, h]

/-- `tests` on a successful batch. -/
theorem tests_of_succ (succ : List Nat → Bool) (l : List Nat)
    (h : succ l = true) : tests succ l = 1 := by
  rw [tests]; simp [h]

/-- `tests` on a failing batch of length at most one. -/
theorem tests_of_single (succ : List Nat → Bool) (l : List Nat)
    (h : succ l = false) (hl : l.length ≤ 1) : tests succ l = 1 := by
  rw [tests]; simp [h, hl]

/-- `tests` on a failing batch of at least two elements. -/
theorem tests_of_split (succ : List Nat → Bool) (l : List Nat)
    (h : succ l = false) (hl : 1 < l.length) :
    tests succ l
      = 1 + tests succ (l.drop (l.length / 2)) + tests succ (l.take (l.length / 2)) := by
  rw [tests]; simp [h]; omega

/-- `badOf` on a successful batch. -/
theorem badOf_of_succ (succ : List Nat → Bool) (l : List Nat)
    (h : succ l = true) : badOf succ l = [] := by
  rw [badOf]; simp [h]

/-- `badOf` on a failing batch of length at most one. -/
theorem badOf_of_single (succ : List Nat → Bool) (l : List Nat)
    (h : succ l = false) (hl : l.length ≤ 1) : badOf succ l = l := by
  rw [badOf]; simp [h, hl]

/-- `badOf` on a failing batch of at least two elements. -/
theorem badOf_of_split (succ : List Nat → Bool) (l : List Nat)
    (h : succ l = false) (hl : 1 < l.length) :
    badOf succ l
      = badOf succ (l.drop (l.length / 2)) ++ badOf succ (l.take (l.length / 2)) := by
  rw [badOf]; simp [h]; omega

/-- Processing one nonempty batch consumes exactly `tests succ l` units of
fuel (one per test invocation), appends `badOf succ l` to the bad list, and
increases the invocation counter by `tests succ l`. -/
theorem bisectLoop_process (succ : List Nat → Bool) (l : List Nat)
    (hne : l ≠ []) :
    ∀ (stack : List (List Nat)) (bad : List Nat) (cnt fuel : Nat),
      bisectLoop succ (tests succ l + fuel) (l :: stack) bad cnt
        = bisectLoop succ fuel stack (bad ++ badOf succ l) (cnt + tests succ l) := by
  intro stack bad cnt fuel
  by_cases hs : succ l = true
  · rw [tests_of_succ succ l hs, badOf_of_succ succ l hs, Nat.add_comm 1 fuel,
      bisectLoop_step_succ succ fuel l stack bad cnt hs]
    simp
  · have hs' : succ l = false := by
      cases hval : succ l
      · rfl
      · exact absurd hval hs
    match l, hne with
    | [x], _ =>
      rw [tests_of_single succ [x] hs' (by simp), badOf_of_single succ [x] hs' (by simp),
        Nat.add_comm 1 fuel, bisectLoop_step_single succ fuel x stack bad cnt hs']
    | x :: y :: rest, _ =>
      have hlen : 1 < (x :: y :: rest).length := by simp
      have hane : (x :: y :: rest).take ((x :: y :: rest).length / 2) ≠ [] := by
        rw [← List.length_pos_iff_ne_nil, List.length_take]
        simp; omega
      have hbne : (x :: y :: rest).drop ((x :: y :: rest).length / 2) ≠ [] := by
        rw [← List.length_pos_iff_ne_nil, List.length_drop]
        simp; omega
      rw [tests_of_split succ _ hs' hlen, badOf_of_split succ _ hs' hlen]
      rw [show 1 + tests succ ((x :: y :: rest).drop ((x :: y :: rest).length / 2))
            + tests succ ((x :: y :: rest).take ((x :: y :: rest).length / 2)) + fuel
          = (tests succ ((x :: y :: rest).drop ((x :: y :: rest).length / 2))
            + (tests succ ((x :: y :: rest).take ((x :: y :: rest).length / 2)) + fuel)) + 1
        from by omega]
      rw [bisectLoop_step_split succ _ x y rest stack bad cnt hs']
      rw [bisectLoop_process succ ((x :: y :: rest).drop ((x :: y :: rest).length / 2)) hbne]
      rw [bisectLoop_process succ ((x :: y :: rest).take ((x :: y :: rest).length / 2)) hane]
      rw [List.append_assoc]
      congr 1
      omega
termination_by l.length
decreasing_by
  · simp only [List.length_drop]; simp; omega
  · simp only [List.length_take]; simp; omega

/-- `oneCulpritSucc p l` fails exactly when `p ∈ l`. -/
theorem oneCulpritSucc_false_iff (p : Nat) (l : List Nat) :
    oneCulpritSucc p l = false ↔ p ∈ l := by
  unfold oneCulpritSucc
  simp [List.contains]

/-- On a batch of length `2^k` containing the culprit exactly once, the loop
spends `2k + 1` test invocations and records exactly `[p]`. -/
theorem oneCulprit_tests (p : Nat) :
    ∀ (k : Nat) (l : List Nat), l.length = 2 ^ k → l.count p = 1 →
      tests (oneCulpritSucc p) l = 2 * k + 1 ∧ badOf (oneCulpritSucc p) l = [p] := by
  intro k
  induction k with
  | zero =>
    intro l hlen hcnt
    rcases l with _ | ⟨a, _ | ⟨b, r⟩⟩
    · exact absurd hlen (by simp)
    · have hap : a = p := by
        rw [List.count_singleton'] at hcnt
        by_cases hc : a = p
        · exact hc
        · rw [if_neg hc] at hcnt; omega
      rw [hap]
      have hs : oneCulpritSucc p [p] = false :=
        (oneCulpritSucc_false_iff p [p]).mpr (by simp)
      refine ⟨?_, ?_⟩
      · exact tests_of_single (oneCulpritSucc p) [p] hs (by simp)
      · exact badOf_of_single (oneCulpritSucc p) [p] hs (by simp)
    · exact absurd hlen (by simp)
  | succ k ih =>
    intro l hlen hcnt
    have hpow : (0:Nat) < 2 ^ k := Nat.pos_pow_of_pos k (by omega)
    have h2k : (2:Nat) ^ (k + 1) = 2 * 2 ^ k := by ring
    have hlen2 : 1 < l.length := by rw [hlen, h2k]; omega
    have hmem : p ∈ l := List.count_pos_iff.mp (by omega)
    have hs : oneCulpritSucc p l = false := (oneCulpritSucc_false_iff p l).mpr hmem
    have hal : (l.take (l.length / 2)).length = 2 ^ k := by
      rw [List.length_take, hlen, h2k]
      simp [Nat.min_def]
    have hbl : (l.drop (l.length / 2)).length = 2 ^ k := by
      rw [List.length_drop, hlen, h2k]
      omega
    have hcnt' : (l.take (l.length / 2)).count p + (l.drop (l.length / 2)).count p = 1 := by
      rw [← List.count_append, List.take_append_drop]
      exact hcnt
    have htl := tests_of_split (oneCulpritSucc p) l hs hlen2
    have hbadl := badOf_of_split (oneCulpritSucc p) l hs hlen2
    have hsplit : ((l.take (l.length / 2)).count p = 1 ∧ (l.drop (l.length / 2)).count p = 0)
        ∨ ((l.take (l.length / 2)).count p = 0 ∧ (l.drop (l.length / 2)).count p = 1) := by
      omega
    rcases hsplit with ⟨ha1, hb0⟩ | ⟨ha0, hb1⟩
    · have hbs : oneCulpritSucc p (l.drop (l.length / 2)) = true := by
        cases hval : oneCulpritSucc p (l.drop (l.length / 2))
        · exact absurd (List.count_eq_zero.mp hb0)
            (by simpa using (oneCulpritSucc_false_iff p _).mp hval)
        · rfl
      obtain ⟨hta, hba⟩ := ih (l.take (l.length / 2)) hal ha1
      constructor
      · rw [htl, tests_of_succ _ _ hbs, hta]; omega
      · rw [hbadl, badOf_of_succ _ _ hbs, hba]; simp
    · have has : oneCulpritSucc p (l.take (l.length / 2)) = true := by
        cases hval : oneCulpritSucc p (l.take (l.length / 2))
        · exact absurd (List.count_eq_zero.mp ha0)
            (by simpa using (oneCulpritSucc_false_iff p _).mp hval)
        · rfl
      obtain ⟨htb, hbb⟩ := ih (l.drop (l.length / 2)) hbl hb1
      constructor
      · rw [htl, tests_of_succ _ _ has, htb]; omega
      · rw [hbadl, hbb, badOf_of_succ _ _ has]; simp

/-! ## Claim theorems -/

/-- C1: on the object set `[1,5,8,7,4,6,3,9,0,5,0,3,1,7,8,7,4,0,3]` with
dominant behavior "product of enabled values == 0", the search loop of
`main.rs` terminates (here within 200 units of fuel, using 23 test
invocations) and the recorded bad indices are exactly the positions holding
value `0`, namely `{8, 10, 17}`. -/
theorem C1_end_to_end :
    bisectLoop (prodTest halfwitObjects) 200 [List.range 19] [] 0
      = some ([17, 10, 8], 23) ∧
    ([17, 10, 8] : List Nat).toFinset = ({8, 10, 17} : Finset Nat) :=
  ⟨by decide, by decide⟩

/-- C5 counterexample: calling `split()` on the size-1 group `[0,0]` is not
an error — the source returns two clones of the group (`Except.ok`, and
`isOk`, rather than any failure). -/
theorem C5_counterexample :
    Group.split { «from» := 0, «to» := 0, behavior := Behavior.Unknown }
      = Except.ok ({ «from» := 0, «to» := 0, behavior := Behavior.Unknown },
          { «from» := 0, «to» := 0, behavior := Behavior.Unknown }) ∧
    (Group.split { «from» := 0, «to» := 0, behavior := Behavior.Unknown }).isOk = true :=
  ⟨rfl, rfl⟩

/-- C5 (amended): `split()` on a size-1 group is not an error; it returns
the pair `(self.clone(), self.clone())`.  A genuine two-way partition is
produced only for groups with `size() > 1`. -/
theorem C5_split_size_one (g : Group) (h : g.«from» = g.«to») :
    g.split = Except.ok (g, g) := by
  unfold Group.split
  rw [if_pos h]

/-- Witness for `C5_split_size_one` at the group `[5,5]` with `Dominant`
behavior. -/
theorem C5_split_size_one_witness :
    ({ «from» := 5, «to» := 5, behavior := Behavior.Dominant } : Group).«from»
      = ({ «from» := 5, «to» := 5, behavior := Behavior.Dominant } : Group).«to» ∧
    Group.split { «from» := 5, «to» := 5, behavior := Behavior.Dominant }
      = Except.ok ({ «from» := 5, «to» := 5, behavior := Behavior.Dominant },
          { «from» := 5, «to» := 5, behavior := Behavior.Dominant }) :=
  ⟨rfl, C5_split_size_one _ rfl⟩

/-- C6 counterexample: `Group::new(2, 1)` with `from > to` is not rejected —
construction succeeds and yields the group `{from: 2, to: 1, behavior:
Unknown}` (no fail-fast check exists in the source). -/
theorem C6_counterexample :
    Group.new 2 1 = { «from» := 2, «to» := 1, behavior := Behavior.Unknown } :=
  rfl

/-- C6 (amended): `Group::new(from, to)` always constructs a group with
behavior `Unknown` and exactly the given bounds; `from ≤ to` is a documented
caller obligation, not a checked construction error. -/
theorem C6_new_unchecked (f t : Nat) :
    (Group.new f t).behavior = Behavior.Unknown ∧
    (Group.new f t).«from» = f ∧ (Group.new f t).«to» = t :=
  ⟨rfl, rfl, rfl⟩

/-- C7: `Bisection::new(objects)` stores the object sequence and initializes
the worklist with the single group `[0, N-1]`; on an empty sequence the
`objects.len() - 1` subtraction underflows, a fail-fast (debug-build panic)
error before any search begins. -/
theorem C7_bisection_new :
    (∀ objects : List State, objects ≠ [] →
      Bisection.new objects
        = Except.ok { objects := objects,
                      groups := [Group.new 0 (objects.length - 1)] }) ∧
    Bisection.new [] = Except.error "attempt to subtract with overflow" := by
  constructor
  · intro objects hne
    unfold Bisection.new
    rw [if_neg]
    intro h0
    exact hne (List.length_eq_zero.mp h0)
  · rfl

/-- Witness for `C7_bisection_new` on a one-element object sequence. -/
theorem C7_bisection_new_witness :
    ([State.Enabled] ≠ ([] : List State)) ∧
    Bisection.new [State.Enabled]
      = Except.ok { objects := [State.Enabled], groups := [Group.new 0 0] } :=
  ⟨by decide, C7_bisection_new.1 [State.Enabled] (by decide)⟩

/-- C8 counterexample: a set of size `2^1 = 2` whose only dominant object is
at index 0 takes 3 test invocations (test `{0,1}`, then `{1}`, then `{0}`),
not `k = 1`. -/
theorem C8_counterexample :
    bisectLoop (oneCulpritSucc 0) 4 [List.range 2] [] 0 = some ([0], 3) ∧
    bisectLoop (oneCulpritSucc 0) 4 [List.range 2] [] 0 ≠ some ([0], 1) :=
  ⟨by decide, by decide⟩

/-- C8 (amended): for every `k` and every culprit position `p < 2^k`, the
loop on an object set of size `2^k` with exactly one dominant object at `p`
terminates and performs exactly `2k + 1` test invocations (one per level on
the culprit's chain plus one per innocent sibling, plus the initial full
set), reporting exactly `[p]`. -/
theorem C8_single_culprit_count (k p : Nat) (hp : p < 2 ^ k) :
    bisectLoop (oneCulpritSucc p) (2 * k + 2) [List.range (2 ^ k)] [] 0
      = some ([p], 2 * k + 1) := by
  have hlen : (List.range (2 ^ k)).length = 2 ^ k := List.length_range _
  have hcnt : (List.range (2 ^ k)).count p = 1 :=
    List.count_eq_one_of_mem (List.nodup_range _) (List.mem_range.mpr hp)
  obtain ⟨ht, hb⟩ := oneCulprit_tests p k (List.range (2 ^ k)) hlen hcnt
  have hne : List.range (2 ^ k) ≠ [] := by
    rw [← List.length_pos_iff_ne_nil, hlen]
    exact Nat.pos_pow_of_pos k (by omega)
  have hproc := bisectLoop_process (oneCulpritSucc p) (List.range (2 ^ k)) hne [] [] 0 1
  rw [ht, hb] at hproc
  rw [show 2 * k + 2 = 2 * k + 1 + 1 from by omega, hproc]
  simp [bisectLoop]

/-- Witness for `C8_single_culprit_count` at `k = 2`, culprit at index 1:
five test invocations. -/
theorem C8_single_culprit_count_witness :
    1 < 2 ^ 2 ∧
    bisectLoop (oneCulpritSucc 1) (2 * 2 + 2) [List.range (2 ^ 2)] [] 0
      = some ([1], 2 * 2 + 1) :=
  ⟨by decide, C8_single_culprit_count 2 1 (by decide)⟩

/-- C2: for every group with `size() > 1`, `split()` succeeds and produces
children covering `[from, mid]` and `[mid+1, to]` with
`mid = from + (to - from) / 2` (floor division); the children's ranges are
disjoint, contiguous, their union is the parent's range, the sizes add up,
and the lower half gets the extra element on odd sizes. -/
theorem C2_split_partition (g : Group) (h : 1 < g.size) :
    ∃ g1 g2, g.split = Except.ok (g1, g2) ∧
      g1.«from» = g.«from» ∧
      g1.«to» = g.«from» + (g.«to» - g.«from») / 2 ∧
      g2.«from» = g1.«to» + 1 ∧
      g2.«to» = g.«to» ∧
      g1.«to» < g2.«from» ∧
      (∀ i : Nat, (g.«from» ≤ i ∧ i ≤ g.«to») ↔
        ((g1.«from» ≤ i ∧ i ≤ g1.«to») ∨ (g2.«from» ≤ i ∧ i ≤ g2.«to»))) ∧
      g1.size + g2.size = g.size ∧
      g2.size ≤ g1.size ∧ g1.size ≤ g2.size + 1 := by
  have hft : g.«from» < g.«to» := by
    unfold Group.size at h
    omega
  unfold Group.split
  rw [if_neg (by omega), if_neg (by omega)]
  unfold Group.size
  refine ⟨_, _, rfl, rfl, rfl, rfl, rfl, ?_, ?_, ?_, ?_, ?_⟩ <;> dsimp only
  · omega
  · intro i
    constructor
    · intro hi
      by_cases hc : i ≤ g.«from» + (g.«to» - g.«from») / 2
      · exact Or.inl ⟨by omega, by omega⟩
      · exact Or.inr ⟨by omega, by omega⟩
    · intro hi
      rcases hi with ⟨h1, h2⟩ | ⟨h1, h2⟩
      · omega
      · omega
  · omega
  · omega
  · omega

/-- Witness for `C2_split_partition` at the group `[0, 2]` (size 3): split
into `[0, 1]` and `[2, 2]`. -/
theorem C2_split_partition_witness :
    1 < (Group.new 0 2).size ∧
    (∃ g1 g2, (Group.new 0 2).split = Except.ok (g1, g2) ∧
      g1.«from» = (Group.new 0 2).«from» ∧
      g1.«to» = (Group.new 0 2).«from» + ((Group.new 0 2).«to» - (Group.new 0 2).«from») / 2 ∧
      g2.«from» = g1.«to» + 1 ∧
      g2.«to» = (Group.new 0 2).«to» ∧
      g1.«to» < g2.«from» ∧
      (∀ i : Nat, ((Group.new 0 2).«from» ≤ i ∧ i ≤ (Group.new 0 2).«to») ↔
        ((g1.«from» ≤ i ∧ i ≤ g1.«to») ∨ (g2.«from» ≤ i ∧ i ≤ g2.«to»))) ∧
      g1.size + g2.size = (Group.new 0 2).size ∧
      g2.size ≤ g1.size ∧ g1.size ≤ g2.size + 1) :=
  ⟨by decide, C2_split_partition (Group.new 0 2) (by decide)⟩

/-- C3: for every group with `size() > 1`, splitting a `Recessive` group
yields two `Recessive` children, and splitting an `Unknown` or `Dominant`
group yields two `Unknown` children. -/
theorem C3_split_behavior (g : Group) (h : 1 < g.size) :
    (g.behavior = Behavior.Recessive →
      ∃ g1 g2, g.split = Except.ok (g1, g2) ∧
        g1.behavior = Behavior.Recessive ∧ g2.behavior = Behavior.Recessive) ∧
    ((g.behavior = Behavior.Unknown ∨ g.behavior = Behavior.Dominant) →
      ∃ g1 g2, g.split = Except.ok (g1, g2) ∧
        g1.behavior = Behavior.Unknown ∧ g2.behavior = Behavior.Unknown) := by
  have hft : g.«from» < g.«to» := by
    unfold Group.size at h
    omega
  unfold Group.split
  rw [if_neg (by omega), if_neg (by omega)]
  constructor
  · intro hb
    rw [hb]
    exact ⟨_, _, rfl, rfl, rfl⟩
  · intro hb
    rcases hb with hb | hb <;> rw [hb]
    · exact ⟨_, _, rfl, rfl, rfl⟩
    · exact ⟨_, _, rfl, rfl, rfl⟩

/-- Witness for `C3_split_behavior`: splitting the `Recessive` group `[7, 8]`
yields two `Recessive` children (the scenario of the source's own unit test
`group_split_behavior`). -/
theorem C3_split_behavior_witness :
    1 < ({ «from» := 7, «to» := 8, behavior := Behavior.Recessive } : Group).size ∧
    (∃ g1 g2,
      ({ «from» := 7, «to» := 8, behavior := Behavior.Recessive } : Group).split
        = Except.ok (g1, g2) ∧
      g1.behavior = Behavior.Recessive ∧ g2.behavior = Behavior.Recessive) :=
  ⟨by decide,
    (C3_split_behavior { «from» := 7, «to» := 8, behavior := Behavior.Recessive }
      (by decide)).1 rfl⟩

/-- C4: for valid (`from ≤ to`), distinct, non-overlapping groups, the
comparison is a strict total order — exactly one of `<`, `>` holds — and `>`
holds exactly when the pair ranks higher by behavior
(`Unknown > Dominant > Recessive`), then by larger size, then by smaller
`from`. -/
theorem C4_strict_total_order (a b : Group)
    (ha : a.«from» ≤ a.«to») (hb : b.«from» ≤ b.«to»)
    (hne : a ≠ b) (hdisj : a.«to» < b.«from» ∨ b.«to» < a.«from») :
    ((a.lt b ∧ ¬ a.gt b) ∨ (a.gt b ∧ ¬ a.lt b)) ∧
    (a.gt b ↔ (behaviorRank b.behavior < behaviorRank a.behavior ∨
      (behaviorRank a.behavior = behaviorRank b.behavior ∧ b.size < a.size) ∨
      (behaviorRank a.behavior = behaviorRank b.behavior ∧ a.size = b.size ∧
        a.«from» < b.«from»))) := by
  have hfrom : a.«from» ≠ b.«from» := by omega
  unfold Group.lt Group.gt Group.partialCmp
  cases h1 : compare (behaviorRank a.behavior) (behaviorRank b.behavior) with
  | lt =>
    have h1' := Nat.compare_eq_lt.mp h1
    exact ⟨Or.inl ⟨rfl, by simp⟩,
      ⟨fun hgt => absurd hgt (by simp), fun hr => absurd hr (by omega)⟩⟩
  | gt =>
    have h1' := Nat.compare_eq_gt.mp h1
    exact ⟨Or.inr ⟨rfl, by simp⟩, ⟨fun _ => Or.inl h1', fun _ => rfl⟩⟩
  | eq =>
    have h1' := Nat.compare_eq_eq.mp h1
    rw [if_neg (by omega)]
    cases h2 : compare a.size b.size with
    | lt =>
      have h2' := Nat.compare_eq_lt.mp h2
      exact ⟨Or.inl ⟨rfl, by simp⟩,
        ⟨fun hgt => absurd hgt (by simp), fun hr => absurd hr (by omega)⟩⟩
    | gt =>
      have h2' := Nat.compare_eq_gt.mp h2
      exact ⟨Or.inr ⟨rfl, by simp⟩,
        ⟨fun _ => Or.inr (Or.inl ⟨h1', h2'⟩), fun _ => rfl⟩⟩
    | eq =>
      have h2' := Nat.compare_eq_eq.mp h2
      cases h3 : compare a.«from» b.«from» with
      | lt =>
        have h3' := Nat.compare_eq_lt.mp h3
        exact ⟨Or.inr ⟨rfl, by simp⟩,
          ⟨fun _ => Or.inr (Or.inr ⟨h1', h2', h3'⟩), fun _ => rfl⟩⟩
      | gt =>
        have h3' := Nat.compare_eq_gt.mp h3
        exact ⟨Or.inl ⟨rfl, by simp⟩,
          ⟨fun hgt => absurd hgt (by simp), fun hr => absurd hr (by omega)⟩⟩
      | eq =>
        exact absurd (Nat.compare_eq_eq.mp h3) hfrom

/-- Witness for `C4_strict_total_order`: the equal-rank, equal-size,
disjoint groups `[0,1]` and `[2,3]` compare with exactly one of `<`, `>`
(the earlier one is greater). -/
theorem C4_strict_total_order_witness :
    (Group.lt { «from» := 0, «to» := 1, behavior := Behavior.Unknown }
        { «from» := 2, «to» := 3, behavior := Behavior.Unknown } ∧
      ¬ Group.gt { «from» := 0, «to» := 1, behavior := Behavior.Unknown }
        { «from» := 2, «to» := 3, behavior := Behavior.Unknown }) ∨
    (Group.gt { «from» := 0, «to» := 1, behavior := Behavior.Unknown }
        { «from» := 2, «to» := 3, behavior := Behavior.Unknown } ∧
      ¬ Group.lt { «from» := 0, «to» := 1, behavior := Behavior.Unknown }
        { «from» := 2, «to» := 3, behavior := Behavior.Unknown }) :=
  (C4_strict_total_order
    { «from» := 0, «to» := 1, behavior := Behavior.Unknown }
    { «from» := 2, «to» := 3, behavior := Behavior.Unknown }
    (by decide) (by decide) (by decide) (by decide)).1

/-- C9 counterexample: for the invariant-violating group `{from: 1, to: 0}`
compared with itself, `partial_cmp` does not return `Some` — the `usize`
subtraction inside `size()` underflows, a debug-build panic (`Except.error`,
not `ok`). -/
theorem C9_counterexample :
    Group.partialCmp { «from» := 1, «to» := 0, behavior := Behavior.Unknown }
        { «from» := 1, «to» := 0, behavior := Behavior.Unknown }
      = Except.error "attempt to subtract with overflow" ∧
    (Group.partialCmp { «from» := 1, «to» := 0, behavior := Behavior.Unknown }
        { «from» := 1, «to» := 0, behavior := Behavior.Unknown }).isOk = false :=
  ⟨rfl, rfl⟩

/-- C9 (amended): `partial_cmp` never returns `None`, and the explicit
debug-build tie-break panic branch (two groups tying on behavior, size and
`from` while differing in `to`) is unreachable for all inputs, because the
final tie-break re-compares `from`; moreover for every pair of groups
satisfying the `from ≤ to` invariant, `partial_cmp` returns `Some` ordering
(so `Group::cmp`'s `unwrap` never panics).  The only possible panic, for
invariant-violating groups, is the `size()` underflow. -/
theorem C9_partial_cmp_never_none (a b : Group) :
    a.partialCmp b ≠ Except.ok none ∧
    a.partialCmp b ≠ Except.error "two groups differed by only to" ∧
    (a.«from» ≤ a.«to» → b.«from» ≤ b.«to» →
      ∃ o, a.partialCmp b = Except.ok (some o)) := by
  unfold Group.partialCmp
  cases h1 : compare (behaviorRank a.behavior) (behaviorRank b.behavior) with
  | lt => exact ⟨by simp, by simp, fun _ _ => ⟨_, rfl⟩⟩
  | gt => exact ⟨by simp, by simp, fun _ _ => ⟨_, rfl⟩⟩
  | eq =>
    by_cases hg : a.«to» < a.«from» ∨ b.«to» < b.«from»
    · rw [if_pos hg]
      exact ⟨by simp, by decide, fun h1 h2 => absurd hg (by omega)⟩
    · rw [if_neg hg]
      cases h2 : compare a.size b.size with
      | lt => exact ⟨by simp, by simp, fun _ _ => ⟨_, rfl⟩⟩
      | gt => exact ⟨by simp, by simp, fun _ _ => ⟨_, rfl⟩⟩
      | eq =>
        cases h3 : compare a.«from» b.«from» with
        | lt => exact ⟨by simp, by simp, fun _ _ => ⟨_, rfl⟩⟩
        | gt => exact ⟨by simp, by simp, fun _ _ => ⟨_, rfl⟩⟩
        | eq => exact ⟨by simp, by simp, fun _ _ => ⟨_, rfl⟩⟩

/-- Witness for `C9_partial_cmp_never_none` on two valid groups. -/
theorem C9_partial_cmp_never_none_witness :
    ∃ o, Group.partialCmp { «from» := 0, «to» := 1, behavior := Behavior.Unknown }
        { «from» := 2, «to» := 3, behavior := Behavior.Dominant }
      = Except.ok (some o) :=
  (C9_partial_cmp_never_none
    { «from» := 0, «to» := 1, behavior := Behavior.Unknown }
    { «from» := 2, «to» := 3, behavior := Behavior.Dominant }).2.2
    (by decide) (by decide)

/-- Running `setStates` along the index range `[start, start + cnt)` with all
indices in bounds: it succeeds, appends exactly that range to the trace,
keeps the length, rewrites every index inside the range to `s`, and leaves
every index outside unchanged. -/
theorem setStates_spec (s : State) :
    ∀ (cnt start : Nat) (objects : List State) (tr : List Nat),
      (∀ i, i ∈ List.range' start cnt → i < objects.length) →
      ∃ objs, setStates objects (List.range' start cnt) s tr
          = some (objs, tr ++ List.range' start cnt) ∧
        objs.length = objects.length ∧
        (∀ j, j < start ∨ start + cnt ≤ j → objs[j]? = objects[j]?) ∧
        (∀ j, start ≤ j → j < start + cnt → objs[j]? = some s) := by
  intro cnt
  induction cnt with
  | zero =>
    intro start objects tr h
    exact ⟨objects, by simp [setStates], rfl, fun j hj => rfl,
      fun j h1 h2 => absurd h2 (by omega)⟩
  | succ n ih =>
    intro start objects tr h
    have hst : start < objects.length :=
      h start (by rw [List.range'_succ]; exact List.mem_cons_self _ _)
    have hbound : ∀ i, i ∈ List.range' (start + 1) n → i < (objects.set start s).length := by
      intro i hi
      rw [List.length_set]
      exact h i (by rw [List.range'_succ]; exact List.mem_cons_of_mem _ hi)
    obtain ⟨objs, heq, hlen, hout, hin⟩ := ih (start + 1) (objects.set start s) (tr ++ [start]) hbound
    refine ⟨objs, ?_, ?_, ?_, ?_⟩
    · rw [List.range'_succ]
      simp only [setStates]
      rw [if_pos hst, heq]
      simp
    · rw [hlen, List.length_set]
    · intro j hj
      rw [hout j (by omega)]
      exact List.getElem?_set_ne (by omega)
    · intro j h1 h2
      by_cases hjs : j = start
      · subst hjs
        rw [hout j (by omega), List.getElem?_set_self']
        simp [hst]
      · exact hin j (by omega) (by omega)

/-- C10: for a group with `to` inside the object vector, `set_group_state`
succeeds and invokes `set_state(state)` on exactly the indices `from..=to`,
in ascending order (the trace equals `[from, ..., to]` and is strictly
increasing); afterwards every object inside the group holds the requested
state, every object outside is unchanged, the object vector's length is
unchanged, and the controller's group collection is unchanged. -/
theorem C10_set_group_state (b : Bisection) (g : Group) (s : State)
    (h : g.«to» < b.objects.length) :
    ∃ objs tr, b.setGroupState g s
        = some ({ objects := objs, groups := b.groups }, tr) ∧
      tr = List.range' g.«from» (g.«to» + 1 - g.«from») ∧
      List.Pairwise (· < ·) tr ∧
      objs.length = b.objects.length ∧
      (∀ i, i < g.«from» ∨ g.«to» < i → objs[i]? = b.objects[i]?) ∧
      (∀ i, g.«from» ≤ i → i ≤ g.«to» → objs[i]? = some s) := by
  obtain ⟨objs, heq, hlen, hout, hin⟩ :=
    setStates_spec s (g.«to» + 1 - g.«from») g.«from» b.objects []
      (fun i hi => by rw [List.mem_range'_1] at hi; omega)
  refine ⟨objs, [] ++ List.range' g.«from» (g.«to» + 1 - g.«from»), ?_, by simp, ?_, hlen, ?_, ?_⟩
  · unfold Bisection.setGroupState Group.indices
    rw [heq]
  · simpa using List.pairwise_lt_range' g.«from» (g.«to» + 1 - g.«from») 1 (by omega)
  · intro i hi
    exact hout i (by omega)
  · intro i h1 h2
    exact hin i h1 (by omega)

/-- Witness for `C10_set_group_state`: enabling the group `[1, 2]` inside a
three-object controller. -/
theorem C10_set_group_state_witness :
    (2 : Nat) < 3 ∧
    (∃ objs tr,
      Bisection.setGroupState
          { objects := [State.Disabled, State.Disabled, State.Disabled],
            groups := [Group.new 0 2] }
          { «from» := 1, «to» := 2, behavior := Behavior.Unknown } State.Enabled
        = some ({ objects := objs, groups := [Group.new 0 2] }, tr) ∧
      tr = List.range' 1 2 ∧
      List.Pairwise (· < ·) tr ∧
      objs.length = 3 ∧
      (∀ i, i < 1 ∨ 2 < i →
        objs[i]? = [State.Disabled, State.Disabled, State.Disabled][i]?) ∧
      (∀ i, 1 ≤ i → i ≤ 2 → objs[i]? = some State.Enabled)) :=
  ⟨by decide,
    C10_set_group_state
      { objects := [State.Disabled, State.Disabled, State.Disabled],
        groups := [Group.new 0 2] }
      { «from» := 1, «to» := 2, behavior := Behavior.Unknown } State.Enabled
      (by decide)⟩

end Halfwit
